import Mathlib

/-!
Shallow embedding of the HyperFlow daemon's event-ingestion and
rule-matching engine (src/hyperflow/daemon.py, class HyperFlowDaemon).

Python strings are modelled as `List Char`, timestamps from the event
loop's monotonic clock as rationals (the source compares
`current_time - last_time < debounce_ms / 1000`, seconds against a
millisecond window divided by 1000; rational arithmetic reproduces those
comparisons exactly on the decimal values involved), and the
`last_event_time` dict as an association list where assignment conses a
new binding (lookup returns the most recent binding, `dict.get`'s
default `0` when the key is absent).
-/

namespace HyperFlow

/-- Python `str` values, modelled as lists of characters. -/
abbrev Str := List Char

/-- The `last_event_time` dict: rule id to last-fire timestamp. -/
abbrev DebounceMap := List (Str × ℚ)

/-- `last_event_time.get(rule_id, 0)`: most recent binding, default 0. -/
def dmGet (m : DebounceMap) (k : Str) : ℚ :=
  match m with
  | [] => 0
  | (k', v) :: rest => if k' = k then v else dmGet rest k

/-- `last_event_time[rule_id] = v`: dict assignment (newest binding shadows). -/
def dmSet (m : DebounceMap) (k : Str) (v : ℚ) : DebounceMap :=
  (k, v) :: m

/-- A condition object `{property, operator, value}` from the rule document.
The three keys are taken as present, as the rule document schema requires. -/
structure Condition where
  property : Str
  operator : Str
  value : Str
deriving DecidableEq, Repr

/-- An action object; `command` is absent when the JSON key is missing. -/
structure Action where
  command : Option Str
deriving DecidableEq, Repr

/-- `rule.get('trigger', {})` with `trigger.get('type')` and
`trigger.get('debounce', 0)`: a missing trigger behaves as `⟨none, none⟩`. -/
structure Trigger where
  type : Option Str
  debounce : Option ℚ
deriving DecidableEq, Repr

/-- A rule object from the JSON rule document.  Fields read with a
`dict.get` default in the source are `Option`s here, the default applied
at the use site exactly as the source does. -/
structure Rule where
  id : Option Str
  name : Option Str
  enabled : Option Bool
  trigger : Trigger
  conditions : List Condition
  actions : List Action
deriving DecidableEq, Repr

/-- `event_str.split('>>', 1)` guarded by `'>>' in event_str`: split at the
first occurrence of the two-character delimiter, `none` when absent. -/
def splitFirstDelim : Str → Option (Str × Str)
  | [] => none
  | [_] => none
  | c₁ :: c₂ :: rest =>
    if c₁ = '>' ∧ c₂ = '>' then some ([], rest)
    else
      match splitFirstDelim (c₂ :: rest) with
      | none => none
      | some (a, b) => some (c₁ :: a, b)

/-- `event_data.split(',')`: Python `str.split` with an explicit separator
(so the empty string yields `[""]`, and separators are never dropped). -/
def split_commas : Str → List Str
  | [] => [[]]
  | c :: rest =>
    if c = ',' then [] :: split_commas rest
    else
      match split_commas rest with
      | [] => [[c]]
      | p :: ps => (c :: p) :: ps

/-- `HyperFlowDaemon.parse_event`: returns `(None, None)` (here `none`)
when the line has no `>>`, else the type before the first `>>` and the
remainder split on commas. -/
def parse_event (event_str : Str) : Option (Str × List Str) :=
  match splitFirstDelim event_str with
  | none => none
  | some (event_type, event_data) => some (event_type, split_commas event_data)

/-- Consume leading decimal digits: (value, number of digits, rest). -/
def readDigits : Str → ℕ × ℕ × Str
  | [] => (0, 0, [])
  | c :: rest =>
    if c.isDigit then
      let p := readDigits rest
      ((c.toNat - 48) * 10 ^ p.2.1 + p.1, p.2.1 + 1, p.2.2)
    else (0, 0, c :: rest)

/-- Model of Python `float(s)` on ordinary decimal numerals: optional
sign, digits with an optional fractional part (at least one digit in
all), optional exponent.  `none` models `float` raising `ValueError`
(the `inf`/`nan`/whitespace/underscore forms are outside this model). -/
def parseFloat? (s : Str) : Option ℚ :=
  let sign : ℚ := if s.head? = some '-' then -1 else 1
  let s₁ : Str := if s.head? = some '-' ∨ s.head? = some '+' then s.tail else s
  let ip := readDigits s₁
  let fr := if ip.2.2.head? = some '.' then readDigits ip.2.2.tail else (0, 0, ip.2.2)
  if ip.2.1 + fr.2.1 = 0 then none
  else
    let mant : ℚ := sign * ((ip.1 : ℚ) + (fr.1 : ℚ) / 10 ^ fr.2.1)
    match fr.2.2 with
    | [] => some mant
    | e :: r =>
      if e = 'e' ∨ e = 'E' then
        let esign : ℤ := if r.head? = some '-' then -1 else 1
        let r₁ : Str := if r.head? = some '-' ∨ r.head? = some '+' then r.tail else r
        let ex := readDigits r₁
        if ex.2.1 = 0 ∨ ex.2.2 ≠ [] then none
        else some (mant * (10 : ℚ) ^ (esign * (ex.1 : ℤ)))
      else none

/-- The nested `property_map` literal of `check_condition`: event type and
property name to the zero-based index into the event data, `none` when
either is unknown (`property_name not in event_property_map`). -/
def property_map (event_type : Str) (property_name : Str) : Option ℕ :=
  if event_type = "openwindow".toList ∨ event_type = "closewindow".toList then
    if property_name = "address".toList then some 0
    else if property_name = "workspace".toList then some 1
    else if property_name = "class".toList then some 2
    else if property_name = "title".toList then some 3
    else none
  else if event_type = "activewindow".toList then
    if property_name = "class".toList then some 0
    else if property_name = "title".toList then some 1
    else none
  else if event_type = "activewindowv2".toList then
    if property_name = "address".toList then some 0 else none
  else if event_type = "workspace".toList then
    if property_name = "name".toList then some 0 else none
  else if event_type = "workspacev2".toList ∨ event_type = "destroyworkspacev2".toList then
    if property_name = "name".toList then some 0
    else if property_name = "id".toList then some 1
    else none
  else if event_type = "windowtitle".toList then
    if property_name = "address".toList then some 0 else none
  else if event_type = "windowtitlev2".toList then
    if property_name = "address".toList then some 0
    else if property_name = "title".toList then some 1
    else none
  else if event_type = "activelayout".toList then
    if property_name = "keyboard".toList then some 0
    else if property_name = "layout".toList then some 1
    else none
  else none

/-- `HyperFlowDaemon.check_condition`: resolve the property through
`property_map` (false when unresolved or out of bounds), then compare per
operator; `greater`/`less` parse both operands as floats and are false on
a parse failure (`except ValueError: return False`). -/
def check_condition (condition : Condition) (event_data : List Str) (event_type : Str) : Bool :=
  match property_map event_type condition.property with
  | none => false
  | some index =>
    if h : index < event_data.length then
      let actual_value := event_data.get ⟨index, h⟩
      if condition.operator = "equals".toList then
        decide (actual_value = condition.value)
      else if condition.operator = "contains".toList then
        decide (condition.value <:+: actual_value)
      else if condition.operator = "startswith".toList then
        decide (condition.value <+: actual_value)
      else if condition.operator = "endswith".toList then
        decide (condition.value <:+ actual_value)
      else if condition.operator = "greater".toList then
        match parseFloat? actual_value, parseFloat? condition.value with
        | some x, some y => decide (x > y)
        | _, _ => false
      else if condition.operator = "less".toList then
        match parseFloat? actual_value, parseFloat? condition.value with
        | some x, some y => decide (x < y)
        | _, _ => false
      else false
    else false

/-- The debounce block of `should_execute_rule` (lines 190-195): skipped
when `debounce_ms > 0` fails; suppresses without touching state when
`now - last < debounce_ms / 1000`, else records `now` and allows. -/
def debounce_gate (last_event_time : DebounceMap) (rule_id : Str) (debounce_ms : ℚ)
    (now : ℚ) : Bool × DebounceMap :=
  if debounce_ms > 0 then
    let last_time := dmGet last_event_time rule_id
    if now - last_time < debounce_ms / 1000 then (false, last_event_time)
    else (true, dmSet last_event_time rule_id now)
  else (true, last_event_time)

/-- `HyperFlowDaemon.should_execute_rule`: enabled gate (default true),
trigger-type gate, debounce gate (which updates `last_event_time`), then
the AND of all conditions.  Returns the decision together with the
updated `last_event_time`. -/
def should_execute_rule (rule : Rule) (event_type : Str) (event_data : List Str)
    (now : ℚ) (last_event_time : DebounceMap) : Bool × DebounceMap :=
  if ¬ rule.enabled.getD true then (false, last_event_time)
  else if rule.trigger.type ≠ some event_type then (false, last_event_time)
  else
    let rule_id := rule.id.getD []
    let debounce_ms := rule.trigger.debounce.getD 0
    let p := debounce_gate last_event_time rule_id debounce_ms now
    if p.1 then (rule.conditions.all fun c => check_condition c event_data event_type, p.2)
    else (false, p.2)

/-- `HyperFlowDaemon.execute_actions`: the commands actually handed to the
shell, in order — each action's `command`, skipped when missing or empty
(`if command:`). -/
def execute_actions (rule : Rule) : List Str :=
  rule.actions.filterMap fun a =>
    match a.command with
    | none => none
    | some c => if c = [] then none else some c

/-- The rule loop of `process_event` (lines 226-229): every rule of the
list in order, threading `last_event_time`, dispatching each matching
rule's actions as they are met. -/
def run_rules : List Rule → Str → List Str → ℚ → DebounceMap → List Str × DebounceMap
  | [], _, _, _, m => ([], m)
  | r :: rs, event_type, event_data, now, m =>
    let p := should_execute_rule r event_type event_data now m
    let q := run_rules rs event_type event_data now p.2
    (if p.1 then execute_actions r ++ q.1 else q.1, q.2)

/-- The mutable daemon fields the engine reads and writes:
`self.rules` and `self.last_event_time`. -/
structure DaemonState where
  rules : List Rule
  last_event_time : DebounceMap
deriving DecidableEq, Repr

/-- `HyperFlowDaemon.process_event`: parse the line, drop it when the
type or the data is falsy, else run every rule.  Returns the dispatched
commands and the updated `last_event_time`. -/
def process_event (event_str : Str) (now : ℚ) (st : DaemonState) : List Str × DebounceMap :=
  match parse_event event_str with
  | none => ([], st.last_event_time)
  | some (event_type, event_data) =>
    if event_type = [] ∨ event_data = [] then ([], st.last_event_time)
    else run_rules st.rules event_type event_data now st.last_event_time

/-- Outcome of reading and parsing the configuration document in
`load_rules`: the file parsed to a rule list, the file was absent, or
reading/parsing raised an exception. -/
inductive LoadOutcome where
  | parsed (rules : List Rule)
  | missing
  | failed
deriving DecidableEq, Repr

/-- `HyperFlowDaemon.load_rules`: `self.rules` after the call — the
parsed list on success, and `[]` both when the file is absent and in the
`except` branch. -/
def load_rules (_prev : List Rule) (outcome : LoadOutcome) : List Rule :=
  match outcome with
  | .parsed rs => rs
  | .missing => []
  | .failed => []

/-- Whether `load_rules` printed its `Error loading rules` message. -/
def load_reports_error (outcome : LoadOutcome) : Bool :=
  match outcome with
  | .failed => true
  | _ => false

/-- `HyperFlowDaemon.reload_handler` (SIGHUP): calls `load_rules` and
touches nothing else. -/
def reload_handler (st : DaemonState) (outcome : LoadOutcome) : DaemonState :=
  { st with rules := load_rules st.rules outcome }

/-- The rule the daemon writes into a fresh default config (`wf_001`). -/
def sampleRule : Rule :=
  { id := some "wf_001".toList
    name := some "Auto-move Spotify to workspace 5".toList
    enabled := some true
    trigger := { type := some "openwindow".toList, debounce := some 100 }
    conditions := [⟨"class".toList, "equals".toList, "spotify".toList⟩]
    actions := [⟨some "hyprctl dispatch movetoworkspace 5".toList⟩] }

/-! ## Claim theorems -/

/-- C1 counterexample: with one rule loaded, a reload whose
read/parse raises leaves the daemon with `[]`, not with the rules that
were in effect before — the claimed preservation fails. -/
theorem reload_failed_keeps_rules_cex :
    (reload_handler ⟨[sampleRule], []⟩ .failed).rules ≠ [sampleRule] := by
  simp [reload_handler, load_rules]

/-- C1 (amended): if reloading the rule document fails to parse, an
error is reported, but the previous rules are discarded: `load_rules`'s
`except` branch resets the rule list to `[]`, so the daemon is left with
zero rules. -/
theorem reload_failed_clears_rules (st : DaemonState) :
    (reload_handler st .failed).rules = [] ∧ load_reports_error .failed = true :=
  ⟨rfl, rfl⟩

/-- C2 counterexample: after a successful reload the recorded last-fire
timestamp of rule id `wf` is still `5` — it is not cleared. -/
theorem reload_preserves_debounce_cex :
    dmGet (reload_handler ⟨[], [("wf".toList, 5)]⟩ (.parsed [sampleRule])).last_event_time
      "wf".toList ≠ 0 := by
  simp [reload_handler, dmGet]

/-- C2 (amended): a reload (successful or not) leaves the DebounceState
untouched: `reload_handler` only replaces `rules`, so every rule's
last-fire timestamp — and hence its cooldown window — carries over. -/
theorem reload_leaves_debounce_unchanged (st : DaemonState) (outcome : LoadOutcome) :
    (reload_handler st outcome).last_event_time = st.last_event_time :=
  rfl

/-- C6: a rule with `enabled = false` never fires: for every event type,
event data, timestamp and debounce state, `should_execute_rule` returns
`false` and leaves the debounce state unchanged. -/
theorem disabled_rule_never_fires (rule : Rule) (event_type : Str) (event_data : List Str)
    (now : ℚ) (m : DebounceMap) (h : rule.enabled = some false) :
    should_execute_rule rule event_type event_data now m = (false, m) := by
  simp [should_execute_rule, h]

/-- C6 witness: a concrete disabled rule whose trigger type matches and
whose (empty) condition list would evaluate true still does not fire. -/
theorem disabled_rule_never_fires_witness :
    should_execute_rule
      ⟨some "r1".toList, none, some false, ⟨some "openwindow".toList, none⟩, [],
        [⟨some "cmd".toList⟩]⟩
      "openwindow".toList ["a".toList] 0 [] = (false, []) :=
  disabled_rule_never_fires _ _ _ _ _ rfl

/-- C10: a rule whose document entry has no `enabled` key behaves exactly
as one with `enabled = true`: the gate `rule.get('enabled', True)`
defaults to true, so such a rule can fire whenever trigger, debounce and
conditions allow. -/
theorem missing_enabled_defaults_true (rule : Rule) (event_type : Str)
    (event_data : List Str) (now : ℚ) (m : DebounceMap) :
    should_execute_rule { rule with enabled := none } event_type event_data now m =
      should_execute_rule { rule with enabled := some true } event_type event_data now m := by
  simp [should_execute_rule]

/-- C9: a raw line beginning with `>>` parses successfully — the type is
the empty string and the fields are still extracted — but `process_event`
drops it at the `if not event_type` guard: no rule is consulted, nothing
is dispatched, and the debounce state is untouched. -/
theorem empty_type_event_dropped (rest : Str) (now : ℚ) (st : DaemonState) :
    parse_event ('>' :: '>' :: rest) = some ([], split_commas rest) ∧
    process_event ('>' :: '>' :: rest) now st = ([], st.last_event_time) := by
  have hp : splitFirstDelim ('>' :: '>' :: rest) = some ([], rest) := by
    simp [splitFirstDelim]
  exact ⟨by simp [parse_event, hp], by simp [process_event, parse_event, hp]⟩

/-- C4: the debounce gate of `should_execute_rule`: with a positive
window, an event inside the window (`now - last < windowMs / 1000`, the
clock reads seconds and the window is in milliseconds) is rejected with
the last-fire map untouched — a suppressed burst never slides the window
— while an event outside it is allowed and records `now`; with
`windowMs = 0` the gate always allows and records nothing. -/
theorem debounce_gate_contract (m : DebounceMap) (k : Str) (w now : ℚ) :
    (0 < w →
      ((now - dmGet m k < w / 1000 → debounce_gate m k w now = (false, m)) ∧
       (¬ now - dmGet m k < w / 1000 → debounce_gate m k w now = (true, dmSet m k now)))) ∧
    (w = 0 → debounce_gate m k w now = (true, m)) := by
  refine ⟨fun hw => ⟨fun hlt => ?_, fun hge => ?_⟩, fun hw0 => ?_⟩ <;>
    simp [debounce_gate, *]

/-- C4 witness: with `debounce = 100` and a fire recorded at `t = 0`
(clock in seconds), the event at `t = 0.05` (50 ms) is suppressed without
moving the window, and the event at `t = 0.15` (150 ms) is allowed and
re-recorded; a zero window always passes without recording. -/
theorem debounce_gate_contract_witness :
    debounce_gate [("wf".toList, 0)] "wf".toList 100 (1 / 20) = (false, [("wf".toList, 0)]) ∧
    debounce_gate [("wf".toList, 0)] "wf".toList 100 (3 / 20) =
      (true, [("wf".toList, 3 / 20), ("wf".toList, 0)]) ∧
    debounce_gate [("wf".toList, 0)] "wf".toList 0 (1 / 20) = (true, [("wf".toList, 0)]) := by
  refine ⟨((debounce_gate_contract _ _ 100 _).1 (by norm_num)).1 (by norm_num [dmGet]),
    ((debounce_gate_contract _ _ 100 _).1 (by norm_num)).2 (by norm_num [dmGet]),
    (debounce_gate_contract _ _ 0 _).2 rfl⟩

/-- When `splitFirstDelim` finds no delimiter, the line contains no
occurrence of `>>` at all. -/
theorem splitFirstDelim_none (s : Str) (h : splitFirstDelim s = none) :
    ∀ a b : Str, s ≠ a ++ '>' :: '>' :: b := by
  induction s with
  | nil =>
    intro a b heq
    have hl := congrArg List.length heq
    simp [List.length_append] at hl
    omega
  | cons c rest ih =>
    cases rest with
    | nil =>
      intro a b heq
      have hl := congrArg List.length heq
      simp [List.length_append] at hl
      omega
    | cons c₂ rest₂ =>
      by_cases hc : c = '>' ∧ c₂ = '>'
      · simp [splitFirstDelim, hc] at h
      · simp only [splitFirstDelim, if_neg hc] at h
        cases h2 : splitFirstDelim (c₂ :: rest₂) with
        | some p => rw [h2] at h; simp at h
        | none =>
          intro a b heq
          cases a with
          | nil =>
            simp only [List.nil_append, List.cons.injEq] at heq
            exact hc ⟨heq.1, heq.2.1⟩
          | cons a₀ a' =>
            simp only [List.cons_append, List.cons.injEq] at heq
            exact ih h2 a' b heq.2

/-- When `splitFirstDelim` splits, the split is at the first occurrence
of `>>`: the line is `t ++ ">>" ++ r` and no occurrence of `>>` starts
inside `t` (none is contained in `t ++ ['>']`). -/
theorem splitFirstDelim_some (s : Str) (t r : Str) (h : splitFirstDelim s = some (t, r)) :
    s = t ++ '>' :: '>' :: r ∧ ∀ a b : Str, t ++ ['>'] ≠ a ++ '>' :: '>' :: b := by
  induction s generalizing t r with
  | nil => simp [splitFirstDelim] at h
  | cons c rest ih =>
    cases rest with
    | nil => simp [splitFirstDelim] at h
    | cons c₂ rest₂ =>
      by_cases hc : c = '>' ∧ c₂ = '>'
      · simp only [splitFirstDelim, if_pos hc, Option.some.injEq, Prod.mk.injEq] at h
        obtain ⟨ht, hr⟩ := h
        subst ht; subst hr
        refine ⟨by simp [hc.1, hc.2], ?_⟩
        intro a b heq
        have hl := congrArg List.length heq
        simp [List.length_append] at hl
        omega
      · simp only [splitFirstDelim, if_neg hc] at h
        cases h2 : splitFirstDelim (c₂ :: rest₂) with
        | none => rw [h2] at h; simp at h
        | some p =>
          rw [h2] at h
          obtain ⟨a₀, b₀⟩ := p
          simp only [Option.some.injEq, Prod.mk.injEq] at h
          obtain ⟨ht, hr⟩ := h
          subst ht; subst hr
          obtain ⟨hs, hfirst⟩ := ih a₀ b₀ h2
          refine ⟨by rw [List.cons_append, ← hs], ?_⟩
          intro a b heq
          cases a with
          | nil =>
            simp only [List.nil_append, List.cons_append, List.cons.injEq] at heq
            obtain ⟨hcgt, htail⟩ := heq
            cases a₀ with
            | nil =>
              simp only [List.nil_append, List.cons.injEq] at hs
              exact hc ⟨hcgt, hs.1⟩
            | cons x a₀' =>
              simp only [List.cons_append, List.cons.injEq] at htail hs
              exact hc ⟨hcgt, hs.1 ▸ htail.1⟩
          | cons a₁ a' =>
            simp only [List.cons_append, List.cons.injEq] at heq
            exact hfirst a' b heq.2

/-- `split_commas` never returns the empty list of fields. -/
theorem split_commas_ne_nil (s : Str) : split_commas s ≠ [] := by
  induction s with
  | nil => simp [split_commas]
  | cons c rest ih =>
    simp only [split_commas]
    split
    · simp
    · cases h : split_commas rest <;> simp

/-- `split_commas` is Python `str.split(',')`, i.e. Mathlib's
`List.splitOn ','`. -/
theorem split_commas_eq_splitOn (s : Str) : split_commas s = s.splitOn ',' := by
  induction s with
  | nil => rfl
  | cons c rest ih =>
    simp only [List.splitOn] at ih ⊢
    simp only [split_commas, List.splitOnP_cons]
    by_cases hc : c = ','
    · subst hc
      simp [ih]
    · rw [if_neg hc, if_neg (by simpa using hc), ← ih]
      cases h : split_commas rest with
      | nil => exact absurd h (split_commas_ne_nil rest)
      | cons p ps => simp [List.modifyHead]

/-- C5: `parse_event` returns nothing exactly when the raw line has no
occurrence of the two-character delimiter `>>`; when it returns an event,
the line splits at the first occurrence of `>>` into the type and a
remainder, and the fields are the remainder split on `','`
(`List.splitOn`), losslessly — no escaping, no trimming. -/
theorem parse_event_contract (s : Str) :
    (parse_event s = none ↔ ¬ ∃ a b : Str, s = a ++ '>' :: '>' :: b) ∧
    (∀ t fs, parse_event s = some (t, fs) →
      ∃ r, s = t ++ '>' :: '>' :: r ∧ (∀ a b : Str, t ++ ['>'] ≠ a ++ '>' :: '>' :: b) ∧
        fs = r.splitOn ',' ∧ List.intercalate [','] fs = r) := by
  cases h : splitFirstDelim s with
  | none =>
    have hpe : parse_event s = none := by simp [parse_event, h]
    refine ⟨?_, ?_⟩
    · exact iff_of_true hpe (by rintro ⟨a, b, heq⟩; exact splitFirstDelim_none s h a b heq)
    · intro t fs hp
      rw [hpe] at hp
      simp at hp
  | some p =>
    obtain ⟨t₀, r₀⟩ := p
    obtain ⟨hs, hfirst⟩ := splitFirstDelim_some s t₀ r₀ h
    refine ⟨?_, ?_⟩
    · exact iff_of_false (by simp [parse_event, h]) (not_not_intro ⟨t₀, r₀, hs⟩)
    · intro t fs hp
      simp only [parse_event, h, Option.some.injEq, Prod.mk.injEq] at hp
      obtain ⟨ht, hfs⟩ := hp
      subst ht
      refine ⟨r₀, hs, hfirst, ?_, ?_⟩
      · rw [← hfs, split_commas_eq_splitOn]
      · rw [← hfs, split_commas_eq_splitOn]
        exact List.intercalate_splitOn r₀ ','

/-- C5 witness: `parse_event` on `"noDelim"` yields nothing, and on
`"openwindow>>0xdead,1,spotify"` splits at the first `>>` with the
comma-separated fields recovered losslessly. -/
theorem parse_event_contract_witness :
    parse_event "noDelim".toList = none ∧
    (∃ r, "openwindow>>0xdead,1,spotify".toList = "openwindow".toList ++ '>' :: '>' :: r ∧
      (∀ a b : Str, "openwindow".toList ++ ['>'] ≠ a ++ '>' :: '>' :: b) ∧
      ["0xdead".toList, "1".toList, "spotify".toList] = r.splitOn ',' ∧
      List.intercalate [','] ["0xdead".toList, "1".toList, "spotify".toList] = r) := by
  constructor
  · exact (parse_event_contract "noDelim".toList).1.mpr (by
      rintro ⟨a, b, heq⟩
      have hmem : '>' ∈ "noDelim".toList := by rw [heq]; simp
      exact absurd hmem (by decide))
  · exact (parse_event_contract "openwindow>>0xdead,1,spotify".toList).2
      "openwindow".toList ["0xdead".toList, "1".toList, "spotify".toList] (by decide)

/-- C3: when an enabled rule's trigger type matches the event and its
positive debounce window has elapsed, `should_execute_rule` records `now`
as the rule's last-fire time — before any condition is evaluated, hence
irrespective of the rule's conditions and of whether it ends up firing. -/
theorem debounce_recorded_before_conditions (rule : Rule) (event_type : Str)
    (event_data : List Str) (now : ℚ) (m : DebounceMap)
    (hen : rule.enabled ≠ some false)
    (htr : rule.trigger.type = some event_type)
    (hdb : 0 < rule.trigger.debounce.getD 0)
    (hel : ¬ now - dmGet m (rule.id.getD []) < rule.trigger.debounce.getD 0 / 1000) :
    should_execute_rule rule event_type event_data now m =
      ((rule.conditions.all fun c => check_condition c event_data event_type),
        dmSet m (rule.id.getD []) now) ∧
    dmGet (should_execute_rule rule event_type event_data now m).2 (rule.id.getD []) = now := by
  have he : rule.enabled.getD true = true := by
    cases h : rule.enabled with
    | none => rfl
    | some b => cases b with
      | false => exact absurd h hen
      | true => rfl
  have hmain : should_execute_rule rule event_type event_data now m =
      ((rule.conditions.all fun c => check_condition c event_data event_type),
        dmSet m (rule.id.getD []) now) := by
    unfold should_execute_rule debounce_gate
    rw [he]
    simp [htr, if_pos hdb, if_neg hel]
  exact ⟨hmain, by rw [hmain]; simp [dmGet, dmSet]⟩

/-- C3 witness: a rule with `debounce = 100` whose single condition fails
(`class equals firefox` against `spotify`) does not fire, yet its
last-fire timestamp is consumed and set to `now = 3/20`. -/
theorem debounce_recorded_before_conditions_witness :
    (should_execute_rule
        ⟨some "wf".toList, none, none, ⟨some "openwindow".toList, some 100⟩,
          [⟨"class".toList, "equals".toList, "firefox".toList⟩], []⟩
        "openwindow".toList
        ["0xdead".toList, "1".toList, "spotify".toList, "s".toList] (3 / 20) []).1 = false ∧
    dmGet (should_execute_rule
        ⟨some "wf".toList, none, none, ⟨some "openwindow".toList, some 100⟩,
          [⟨"class".toList, "equals".toList, "firefox".toList⟩], []⟩
        "openwindow".toList
        ["0xdead".toList, "1".toList, "spotify".toList, "s".toList] (3 / 20) []).2
      "wf".toList = 3 / 20 := by
  have h := debounce_recorded_before_conditions
    ⟨some "wf".toList, none, none, ⟨some "openwindow".toList, some 100⟩,
      [⟨"class".toList, "equals".toList, "firefox".toList⟩], []⟩
    "openwindow".toList
    ["0xdead".toList, "1".toList, "spotify".toList, "s".toList] (3 / 20) []
    (by simp) rfl (by norm_num) (by norm_num [dmGet])
  refine ⟨?_, h.2⟩
  rw [h.1]
  simp [check_condition, property_map]

/-- C7: `check_condition` is a total Boolean function — the Python
`except ValueError` branch is the `| _, _ => false` arm here, so nothing
escapes — and for the numeric operators `greater`/`less` on a resolved,
in-bounds property it returns false whenever either operand fails to
parse as a float, and the numeric comparison when both parse. -/
theorem numeric_condition_contract (cond : Condition) (event_data : List Str)
    (event_type : Str) (i : ℕ)
    (hm : property_map event_type cond.property = some i)
    (hlt : i < event_data.length) :
    (cond.operator = "greater".toList →
      check_condition cond event_data event_type =
        match parseFloat? (event_data.get ⟨i, hlt⟩), parseFloat? cond.value with
        | some x, some y => decide (x > y)
        | _, _ => false) ∧
    (cond.operator = "less".toList →
      check_condition cond event_data event_type =
        match parseFloat? (event_data.get ⟨i, hlt⟩), parseFloat? cond.value with
        | some x, some y => decide (x < y)
        | _, _ => false) := by
  constructor <;> intro hop <;>
    · simp only [check_condition, hm]
      rw [dif_pos hlt, hop]
      simp +decide

/-- C7 witness: on an `openwindow` event with workspace field `"1"`, the
condition `workspace greater "0"` is true (`1 > 0`), and with the
non-numeric value `"abc"` it is false rather than an error. -/
theorem numeric_condition_contract_witness :
    check_condition ⟨"workspace".toList, "greater".toList, "0".toList⟩
      ["0xdead".toList, "1".toList, "spotify".toList] "openwindow".toList = true ∧
    check_condition ⟨"workspace".toList, "greater".toList, "abc".toList⟩
      ["0xdead".toList, "1".toList, "spotify".toList] "openwindow".toList = false := by
  constructor
  · have h := (numeric_condition_contract
      ⟨"workspace".toList, "greater".toList, "0".toList⟩
      ["0xdead".toList, "1".toList, "spotify".toList] "openwindow".toList 1
      (by decide) (by decide)).1 rfl
    rw [h]
    simp +decide [parseFloat?, readDigits]
  · have h := (numeric_condition_contract
      ⟨"workspace".toList, "greater".toList, "abc".toList⟩
      ["0xdead".toList, "1".toList, "spotify".toList] "openwindow".toList 1
      (by decide) (by decide)).1 rfl
    rw [h]
    simp +decide [parseFloat?, readDigits]

/-- A rule whose trigger type is the empty string: it matches an
empty-typed event in `should_execute_rule`, yet `process_event` never
lets such an event reach the rules. -/
def emptyTypeRule : Rule :=
  { id := some "r0".toList
    name := none
    enabled := none
    trigger := { type := some [], debounce := none }
    conditions := []
    actions := [⟨some "cmd".toList⟩] }

/-- C8 counterexample: the line `">>x"` parses successfully (empty type,
field `"x"`), and a rule with trigger type `""` matches that event — yet
`process_event` dispatches nothing: not every successfully parsed event
has every rule evaluated and every matching rule's actions dispatched. -/
theorem process_event_empty_type_cex :
    parse_event ">>x".toList = some ([], ["x".toList]) ∧
    (should_execute_rule emptyTypeRule [] ["x".toList] 0 []).1 = true ∧
    execute_actions emptyTypeRule = ["cmd".toList] ∧
    process_event ">>x".toList 0 ⟨[emptyTypeRule], []⟩ = ([], []) :=
  ⟨by decide, by decide, by decide, by decide⟩

/-- `run_rules` over a concatenation: the first block runs first, the
second continues from the debounce state the first block left behind,
and the dispatched commands concatenate in document order. -/
theorem run_rules_append (l₁ l₂ : List Rule) (et : Str) (ed : List Str) (now : ℚ)
    (m : DebounceMap) :
    run_rules (l₁ ++ l₂) et ed now m =
      ((run_rules l₁ et ed now m).1 ++
        (run_rules l₂ et ed now (run_rules l₁ et ed now m).2).1,
        (run_rules l₂ et ed now (run_rules l₁ et ed now m).2).2) := by
  induction l₁ generalizing m with
  | nil => simp [run_rules]
  | cons r l₁ ih =>
    cases hp : (should_execute_rule r et ed now m).1 <;>
      simp [run_rules, hp, ih, List.append_assoc]

/-- C8 (amended): for every successfully parsed event whose type is
nonempty, `process_event` evaluates every rule of the current rule list
in document order, and every rule that matches — wherever it sits in the
list, not only the first — has its actions dispatched, with the rules
after it still evaluated. -/
theorem process_event_fires_every_match (s : Str) (now : ℚ) (st : DaemonState)
    (rules₁ rules₂ : List Rule) (r : Rule) (et : Str) (ed : List Str)
    (hrules : st.rules = rules₁ ++ r :: rules₂)
    (hp : parse_event s = some (et, ed))
    (hne : et ≠ [])
    (hr : (should_execute_rule r et ed now
        (run_rules rules₁ et ed now st.last_event_time).2).1 = true) :
    (process_event s now st).1 =
      (run_rules rules₁ et ed now st.last_event_time).1 ++ execute_actions r ++
      (run_rules rules₂ et ed now
        (should_execute_rule r et ed now
          (run_rules rules₁ et ed now st.last_event_time).2).2).1 := by
  have hed : ed ≠ [] := by
    cases hsp : splitFirstDelim s with
    | none => simp [parse_event, hsp] at hp
    | some p =>
      obtain ⟨t₀, r₀⟩ := p
      simp only [parse_event, hsp, Option.some.injEq, Prod.mk.injEq] at hp
      rw [← hp.2]
      exact split_commas_ne_nil r₀
  simp only [process_event, hp]
  rw [if_neg (by simp [hne, hed]), hrules, run_rules_append]
  cases hq : (run_rules rules₁ et ed now st.last_event_time) with
  | mk fired₁ m₁ =>
    rw [hq] at hr
    simp only [run_rules, hr, if_true, List.append_assoc]

/-- An always-matching `workspace` rule dispatching `echo a`. -/
def ruleA : Rule :=
  { id := some "ra".toList
    name := none
    enabled := none
    trigger := { type := some "workspace".toList, debounce := none }
    conditions := []
    actions := [⟨some "echo a".toList⟩] }

/-- An always-matching `workspace` rule dispatching `echo b`. -/
def ruleB : Rule :=
  { id := some "rb".toList
    name := none
    enabled := none
    trigger := { type := some "workspace".toList, debounce := none }
    conditions := []
    actions := [⟨some "echo b".toList⟩] }

/-- C8 witness: on the line `"workspace>>3"` with two matching rules, the
second rule fires although the first already matched, and the dispatched
commands are both rules' actions in document order. -/
theorem process_event_fires_every_match_witness :
    (process_event "workspace>>3".toList 0 ⟨[ruleA, ruleB], []⟩).1 =
      (run_rules [ruleA] "workspace".toList ["3".toList] 0 []).1 ++ execute_actions ruleB ++
      (run_rules [] "workspace".toList ["3".toList] 0
        (should_execute_rule ruleB "workspace".toList ["3".toList] 0
          (run_rules [ruleA] "workspace".toList ["3".toList] 0 []).2).2).1 ∧
    (process_event "workspace>>3".toList 0 ⟨[ruleA, ruleB], []⟩).1 =
      ["echo a".toList, "echo b".toList] := by
  have h := process_event_fires_every_match "workspace>>3".toList 0 ⟨[ruleA, ruleB], []⟩
    [ruleA] [] ruleB "workspace".toList ["3".toList] rfl (by decide) (by decide) (by decide)
  exact ⟨h, by decide⟩

end HyperFlow
